import Mathlib

/-!
Verification development for the milo-dex pool settlement daemons
(`pool-daemon/src/bin/swap_daemon.rs` and `pool-daemon/src/bin/liquidity_daemon.rs`).

The Rust daemons are shallowly embedded: machine integers (`u64`, `u128`)
become `Nat` with explicit `% 2^64` / `% 2^128` reductions at the points where
the Rust computation can overflow (release-build wrapping semantics);
`f64` price arithmetic is modelled exactly over `ℚ`; the ledger client's
effects (transaction submission, confirmation polling) are modelled as
explicit outcome parameters fed to otherwise pure state-transition functions.
-/

namespace MiloDex

/-- The modulus of Rust `u64` arithmetic, `2 ^ 64`. -/
def U64 : Nat := 2 ^ 64

/-- The modulus of Rust `u128` arithmetic, `2 ^ 128`. -/
def U128 : Nat := 2 ^ 128

/-- AMM output as computed in `swap_daemon.rs` (`execute_p2id_swap`, lines
814–821, and identically in `check_limit_orders`, lines 1054–1058):

    let fee_multiplier = 10000u128 - fee_bps as u128;
    let amount_in_with_fee = (amount_in as u128) * fee_multiplier;
    let numerator = amount_in_with_fee * (reserve_out as u128);
    let denominator = (reserve_in as u128) * 10000 + amount_in_with_fee;
    let amount_out = (numerator / denominator) as u64;

`u128` multiplications and additions wrap modulo `2 ^ 128` (release build);
the final `as u64` cast truncates modulo `2 ^ 64`.  The callers only pass
`fee_bps ∈ {5, 10, 30}`, so the `10000u128 - fee_bps` subtraction never
underflows and is rendered as truncated `Nat` subtraction. -/
def ammOut (amount_in reserve_in reserve_out fee_bps : Nat) : Nat :=
  let fee_multiplier := 10000 - fee_bps
  let amount_in_with_fee := amount_in * fee_multiplier % U128
  let numerator := amount_in_with_fee * reserve_out % U128
  let denominator := (reserve_in * 10000 + amount_in_with_fee) % U128
  numerator / denominator % U64

/-- Modelled from the spec's words (§4.2), for comparison with `ammOut`:
`output = floor(amount_in × (10000 − fee_bps) × reserve_out /
(reserve_in × 10000 + amount_in × (10000 − fee_bps)))` with exact
(unbounded) integer intermediates. -/
def ammOutExact (amount_in reserve_in reserve_out fee_bps : Nat) : Nat :=
  amount_in * (10000 - fee_bps) * reserve_out /
    (reserve_in * 10000 + amount_in * (10000 - fee_bps))

/-- The numerator `amount_in × (10000 − fee_bps) × reserve_out` fits in
`u128`: the no-overflow condition for the swap computation. -/
def ammNoOverflow (amount_in reserve_out fee_bps : Nat) : Prop :=
  amount_in * (10000 - fee_bps) * reserve_out < U128

theorem U64_pos : 0 < U64 := by decide

theorem U128_pos : 0 < U128 := by decide

/-- Under `u64`-sized inputs the fee-adjusted input and the denominator never
wrap in `u128`. -/
theorem amm_small_terms {amount_in reserve_in fee_bps : Nat}
    (ha : amount_in < U64) (hr : reserve_in < U64) (hf : fee_bps ≤ 10000) :
    amount_in * (10000 - fee_bps) < U128 ∧
      reserve_in * 10000 + amount_in * (10000 - fee_bps) < U128 := by
  have h1 : amount_in * (10000 - fee_bps) ≤ (U64 - 1) * 10000 := by
    apply Nat.mul_le_mul (by omega) (by omega)
  have h2 : reserve_in * 10000 ≤ (U64 - 1) * 10000 := by
    apply Nat.mul_le_mul (by omega) (by omega)
  constructor
  · calc amount_in * (10000 - fee_bps) ≤ (U64 - 1) * 10000 := h1
    _ < U128 := by decide
  · calc reserve_in * 10000 + amount_in * (10000 - fee_bps)
        ≤ (U64 - 1) * 10000 + (U64 - 1) * 10000 := Nat.add_le_add h2 h1
    _ < U128 := by decide

/-- With positive reserves and `u64`-sized inputs, the computed swap output is
strictly below `reserve_out` — even when the `u128` numerator wraps. -/
theorem ammOut_lt_reserve_out {amount_in reserve_in reserve_out fee_bps : Nat}
    (ha : amount_in < U64) (hri : reserve_in < U64)
    (hf : fee_bps ≤ 10000) (hrip : 0 < reserve_in) (hrop : 0 < reserve_out) :
    ammOut amount_in reserve_in reserve_out fee_bps < reserve_out := by
  obtain ⟨hsmall, hden⟩ := amm_small_terms ha hri hf
  simp only [ammOut, Nat.mod_eq_of_lt hsmall, Nat.mod_eq_of_lt hden]
  set aiwf := amount_in * (10000 - fee_bps) with haiwf
  set den := reserve_in * 10000 + aiwf with hdenval
  have hrin : 0 < reserve_in * 10000 := by positivity
  have hdpos : 0 < den := by omega
  have haiwf_lt : aiwf < den := by omega
  have hnum_lt : aiwf * reserve_out % U128 < reserve_out * den := by
    rcases lt_or_le (aiwf * reserve_out) U128 with hcase | hcase
    · rw [Nat.mod_eq_of_lt hcase]
      calc aiwf * reserve_out < den * reserve_out :=
            mul_lt_mul_of_pos_right haiwf_lt hrop
      _ = reserve_out * den := Nat.mul_comm _ _
    · calc aiwf * reserve_out % U128 < U128 := Nat.mod_lt _ U128_pos
      _ ≤ aiwf * reserve_out := hcase
      _ ≤ den * reserve_out := mul_le_mul_right' (Nat.le_of_lt haiwf_lt) _
      _ = reserve_out * den := Nat.mul_comm _ _
  have hq : aiwf * reserve_out % U128 / den < reserve_out :=
    (Nat.div_lt_iff_lt_mul hdpos).2 hnum_lt
  calc aiwf * reserve_out % U128 / den % U64
      ≤ aiwf * reserve_out % U128 / den := Nat.mod_le _ _
  _ < reserve_out := hq

/-- When the numerator does not overflow (and the inputs are `u64`-sized with
a positive input reserve), the code's `u128` computation agrees with the
spec's exact floor formula. -/
theorem ammOut_eq_exact {amount_in reserve_in reserve_out fee_bps : Nat}
    (ha : amount_in < U64) (hri : reserve_in < U64) (hro : reserve_out < U64)
    (hf : fee_bps ≤ 10000) (hrip : 0 < reserve_in)
    (hno : ammNoOverflow amount_in reserve_out fee_bps) :
    ammOut amount_in reserve_in reserve_out fee_bps =
      ammOutExact amount_in reserve_in reserve_out fee_bps := by
  obtain ⟨hsmall, hden⟩ := amm_small_terms ha hri hf
  unfold ammNoOverflow at hno
  simp only [ammOut, ammOutExact, Nat.mod_eq_of_lt hsmall,
    Nat.mod_eq_of_lt hden, Nat.mod_eq_of_lt hno]
  set aiwf := amount_in * (10000 - fee_bps) with haiwf
  set den := reserve_in * 10000 + aiwf with hdenval
  have hrin : 0 < reserve_in * 10000 := by positivity
  have hdpos : 0 < den := by omega
  have haiwf_lt : aiwf < den := by omega
  have hq_lt : aiwf * reserve_out / den < U64 := by
    rcases Nat.eq_zero_or_pos reserve_out with h0 | hrop
    · simp [h0]
      exact U64_pos
    · have hlt : aiwf * reserve_out / den < reserve_out :=
        (Nat.div_lt_iff_lt_mul hdpos).2 (by
          calc aiwf * reserve_out < den * reserve_out :=
                mul_lt_mul_of_pos_right haiwf_lt hrop
          _ = reserve_out * den := Nat.mul_comm _ _)
      exact hlt.trans hro
  exact Nat.mod_eq_of_lt hq_lt

/-- A zero `amount_in` always yields output `0` (no division-by-zero error:
with a positive input reserve the denominator is positive; and in Lean's
model `0 / 0 = 0` anyway). -/
theorem ammOut_zero (reserve_in reserve_out fee_bps : Nat) :
    ammOut 0 reserve_in reserve_out fee_bps = 0 := by
  simp [ammOut]

/-- Cross-multiplication criterion for comparing two `Nat` floor divisions. -/
theorem div_le_div_cross {p q r s : Nat} (hq : 0 < q) (hs : 0 < s)
    (h : p * s ≤ r * q) : p / q ≤ r / s := by
  rw [Nat.le_div_iff_mul_le hs]
  have h1 : p / q * s * q ≤ p * s := by
    calc p / q * s * q = p / q * q * s := by ring
    _ ≤ p * s := mul_le_mul_right' (Nat.div_mul_le_self p q) s
  exact Nat.le_of_mul_le_mul_right (h1.trans h) hq

/-- The exact constant-product formula is non-decreasing in `amount_in`. -/
theorem ammOutExact_mono {a b reserve_in reserve_out fee_bps : Nat}
    (hab : a ≤ b) (hrip : 0 < reserve_in) :
    ammOutExact a reserve_in reserve_out fee_bps ≤
      ammOutExact b reserve_in reserve_out fee_bps := by
  set m := 10000 - fee_bps with hm
  have hrin : 0 < reserve_in * 10000 := by positivity
  unfold ammOutExact
  apply div_le_div_cross (by omega) (by omega)
  have h1 : a * (m * reserve_out * (reserve_in * 10000)) ≤
      b * (m * reserve_out * (reserve_in * 10000)) := mul_le_mul_right' hab _
  calc a * m * reserve_out * (reserve_in * 10000 + b * m)
      = a * (m * reserve_out * (reserve_in * 10000)) +
          a * m * reserve_out * (b * m) := by ring
  _ ≤ b * (m * reserve_out * (reserve_in * 10000)) +
        a * m * reserve_out * (b * m) := Nat.add_le_add_right h1 _
  _ = b * m * reserve_out * (reserve_in * 10000 + a * m) := by ring

/-- Claim C1: for every `amount_in`, `fee_bps ≤ 10000` and reserves
`reserve_in > 0`, `reserve_out > 0` (all `u64`-sized), the swap output
computed before settlement equals
`floor(amount_in × (10000 − fee_bps) × reserve_out /
(reserve_in × 10000 + amount_in × (10000 − fee_bps)))` — **provided** the
128-bit numerator `amount_in × (10000 − fee_bps) × reserve_out` does not
overflow `2 ^ 128` (which holds for amounts up to ~`10^17` but not for all
amounts up to `10^18`; see the counterexample) — and `amount_in = 0` yields
output `0` without error. -/
theorem claim_C1_swap_formula :
    (∀ amount_in reserve_in reserve_out fee_bps : Nat,
        amount_in < U64 → reserve_in < U64 → reserve_out < U64 →
        fee_bps ≤ 10000 → 0 < reserve_in →
        ammNoOverflow amount_in reserve_out fee_bps →
        ammOut amount_in reserve_in reserve_out fee_bps =
          ammOutExact amount_in reserve_in reserve_out fee_bps) ∧
    (∀ reserve_in reserve_out fee_bps : Nat,
        ammOut 0 reserve_in reserve_out fee_bps = 0) :=
  ⟨fun _ _ _ _ ha hri hro hf hp hno => ammOut_eq_exact ha hri hro hf hp hno,
   ammOut_zero⟩

/-- Witness for C1 at the spec's slippage-test inputs: reserves `(1000, 1000)`,
fee `10` bps, `amount_in = 100`. -/
theorem claim_C1_witness :
    ammOut 100 1000 1000 10 = ammOutExact 100 1000 1000 10 ∧
      ammOut 0 1000 1000 10 = 0 :=
  ⟨claim_C1_swap_formula.1 100 1000 1000 10 (by decide) (by decide)
      (by decide) (by decide) (by decide)
      (by unfold ammNoOverflow; decide),
   claim_C1_swap_formula.2 1000 1000 10⟩

/-- Counterexample to C1 as stated: at `amount_in = reserve_out = 10^18`
(amounts "up to ~10^18"), `reserve_in = 1`, `fee_bps = 30`, the 128-bit
numerator `10^18 × 9970 × 10^18 ≈ 10^40` exceeds `2^128 ≈ 3.4 × 10^38`, so
the code's wrapped computation differs from the exact floor formula. -/
theorem claim_C1_counterexample :
    ammOut (10 ^ 18) 1 (10 ^ 18) 30 = 10211771243007478 ∧
      ammOutExact (10 ^ 18) 1 (10 ^ 18) 30 = 999999999999999998 ∧
      ammOut (10 ^ 18) 1 (10 ^ 18) 30 ≠
        ammOutExact (10 ^ 18) 1 (10 ^ 18) 30 := by
  refine ⟨by decide, by decide, by decide⟩

/-- Claim C8: for fixed positive `u64` reserves and a fixed fee, the AMM output
is non-decreasing in `amount_in` **as long as the 128-bit numerator does not
overflow at the larger input**, and is strictly less than `reserve_out` for
every positive `u64` `amount_in` (the strict bound holds even when the
numerator wraps). -/
theorem claim_C8_pricing_monotonicity :
    (∀ a b reserve_in reserve_out fee_bps : Nat,
        a ≤ b → b < U64 → reserve_in < U64 → reserve_out < U64 →
        fee_bps ≤ 10000 → 0 < reserve_in →
        ammNoOverflow b reserve_out fee_bps →
        ammOut a reserve_in reserve_out fee_bps ≤
          ammOut b reserve_in reserve_out fee_bps) ∧
    (∀ a reserve_in reserve_out fee_bps : Nat,
        0 < a → a < U64 → reserve_in < U64 → fee_bps ≤ 10000 →
        0 < reserve_in → 0 < reserve_out →
        ammOut a reserve_in reserve_out fee_bps < reserve_out) := by
  constructor
  · intro a b reserve_in reserve_out fee_bps hab hb hri hro hf hp hno
    have hnoa : ammNoOverflow a reserve_out fee_bps := by
      unfold ammNoOverflow at hno ⊢
      calc a * (10000 - fee_bps) * reserve_out
          ≤ b * (10000 - fee_bps) * reserve_out := by
            apply mul_le_mul_right'
            exact mul_le_mul_right' hab _
      _ < U128 := hno
    rw [ammOut_eq_exact (lt_of_le_of_lt hab hb) hri hro hf hp hnoa,
      ammOut_eq_exact hb hri hro hf hp hno]
    exact ammOutExact_mono hab hp
  · intro a reserve_in reserve_out fee_bps _ ha hri hf hp hrop
    exact ammOut_lt_reserve_out ha hri hf hp hrop

/-- Witness for C8 at concrete inputs: reserves `(1000, 1000)`, fee `10` bps,
`amount_in` growing from `100` to `200`, plus the strict output bound. -/
theorem claim_C8_witness :
    ammOut 100 1000 1000 10 ≤ ammOut 200 1000 1000 10 ∧
      ammOut 100 1000 1000 10 < 1000 :=
  ⟨claim_C8_pricing_monotonicity.1 100 200 1000 1000 10 (by decide)
      (by decide) (by decide) (by decide) (by decide) (by decide)
      (by unfold ammNoOverflow; decide),
   claim_C8_pricing_monotonicity.2 100 1000 1000 10 (by decide) (by decide)
      (by decide) (by decide) (by decide) (by decide)⟩

/-- Counterexample to C8 as stated: at reserves `(1, 2^64 − 1)` with fee
`30` bps, raising `amount_in` from `10^15` to `2 × 10^15` makes the 128-bit
numerator wrap, and the computed output *decreases* — monotonicity fails for
finite `u64` inputs once the intermediate product overflows. -/
theorem claim_C8_counterexample :
    (10 ^ 15 : Nat) ≤ 2 * 10 ^ 15 ∧
      ammOut (2 * 10 ^ 15) 1 (2 ^ 64 - 1) 30 <
        ammOut (10 ^ 15) 1 (2 ^ 64 - 1) 30 := by
  refine ⟨by decide, by decide⟩

/-- A price sample recorded by the swap daemon after each executed swap
(`struct PricePoint` in `swap_daemon.rs`).  The `f64` price is modelled
exactly over `ℚ`. -/
structure PricePoint where
  timestamp : Nat
  pool_id : String
  price : ℚ
  reserve_a : Nat
  reserve_b : Nat
deriving DecidableEq, Repr

/-- Pair windows of a list, i.e. `slice::windows(2)` as used on the price
list in `calculate_dynamic_fee`. -/
def windows2 {α : Type} : List α → List (α × α)
  | a :: b :: t => (a, b) :: windows2 (b :: t)
  | _ => []

/-- The most recent up-to-10 prices of a pool, newest first
(`price_history.iter().filter(pool).rev().take(10).map(price)` in
`calculate_dynamic_fee`). -/
def recentPrices (history : List PricePoint) (pool_id : String) : List ℚ :=
  (((history.filter (fun p => p.pool_id == pool_id)).reverse).take 10).map
    (fun p => p.price)

/-- Absolute relative price changes between consecutive samples
(`recent.windows(2).map(|w| ((w[0] - w[1]) / w[1]).abs())`; `recent` is
newest-first, so `w[0]` is the newer and `w[1]` the older sample). -/
def relAbsChanges (recent : List ℚ) : List ℚ :=
  (windows2 recent).map (fun w => |(w.1 - w.2) / w.2|)

/-- Population variance of the relative price changes, as computed in
`calculate_dynamic_fee` (mean, then mean of squared deviations; division by
the number of changes, i.e. population rather than sample variance).  The
source then takes `variance.sqrt()` and compares the standard deviation to
the tier bounds; the model keeps the (exact, rational) variance and the
theorems relate it to `Real.sqrt`. -/
def feeVariance (history : List PricePoint) (pool_id : String) : ℚ :=
  let changes := relAbsChanges (recentPrices history pool_id)
  let n : ℚ := changes.length
  let mean := changes.sum / n
  ((changes.map (fun c => (c - mean) ^ 2)).sum) / n

/-- Dynamic fee from price volatility (`calculate_dynamic_fee`,
`swap_daemon.rs` lines 553–583).  Returns `(fee_basis_points, fee_percent)`.
Fewer than 2 recent samples → default `(10, 0.1)`.  Otherwise the source
compares `std_dev = sqrt variance` against `0.001` and `0.01`; since both
sides are nonnegative this is equivalent to comparing the variance against
`0.001² = 1/10^6` and `0.01² = 1/10^4`, which keeps the model executable
over `ℚ`. -/
def calculate_dynamic_fee (history : List PricePoint) (pool_id : String) :
    Nat × ℚ :=
  let recent := recentPrices history pool_id
  if recent.length < 2 then (10, 1 / 10)
  else
    let v := feeVariance history pool_id
    if v < 1 / 1000000 then (5, 1 / 20)
    else if v < 1 / 10000 then (10, 1 / 10)
    else (30, 3 / 10)

/-- For a nonnegative rational threshold, comparing a square root against it
is comparing the radicand against its square. -/
theorem sqrt_lt_cast_iff {v c : ℚ} (hc : 0 < c) :
    Real.sqrt (v : ℝ) < (c : ℝ) ↔ v < c ^ 2 := by
  rw [Real.sqrt_lt' (by exact_mod_cast hc), ← Rat.cast_pow, Rat.cast_lt]

/-- Claim C6: the volatility fee estimator returns 10 bps when fewer than 2
recent samples exist for the pool; otherwise it computes the population
standard deviation of the relative price changes between consecutive samples
and returns 5 bps when `stddev < 0.001`, 10 bps when
`0.001 ≤ stddev < 0.01`, and 30 bps otherwise (lower tiers have exclusive upper
boundaries). -/
theorem claim_C6_volatility_fee :
    (∀ (history : List PricePoint) (pool_id : String),
        (recentPrices history pool_id).length < 2 →
        calculate_dynamic_fee history pool_id = (10, 1 / 10)) ∧
    (∀ (history : List PricePoint) (pool_id : String),
        2 ≤ (recentPrices history pool_id).length →
        ((Real.sqrt (feeVariance history pool_id : ℝ) < 1 / 1000 →
            calculate_dynamic_fee history pool_id = (5, 1 / 20)) ∧
          ((1 : ℝ) / 1000 ≤ Real.sqrt (feeVariance history pool_id : ℝ) →
            Real.sqrt (feeVariance history pool_id : ℝ) < 1 / 100 →
            calculate_dynamic_fee history pool_id = (10, 1 / 10)) ∧
          ((1 : ℝ) / 100 ≤ Real.sqrt (feeVariance history pool_id : ℝ) →
            calculate_dynamic_fee history pool_id = (30, 3 / 10)))) := by
  constructor
  · intro history pool_id h
    simp only [calculate_dynamic_fee, if_pos h]
  · intro history pool_id h
    have hnottwo : ¬ (recentPrices history pool_id).length < 2 := by omega
    have hcast1 : ((1 / 1000 : ℚ) : ℝ) = 1 / 1000 := by norm_num
    have hcast2 : ((1 / 100 : ℚ) : ℝ) = 1 / 100 := by norm_num
    have hs1 : Real.sqrt (feeVariance history pool_id : ℝ) < 1 / 1000 ↔
        feeVariance history pool_id < 1 / 1000000 := by
      rw [← hcast1, sqrt_lt_cast_iff (by norm_num)]
      norm_num
    have hs2 : Real.sqrt (feeVariance history pool_id : ℝ) < 1 / 100 ↔
        feeVariance history pool_id < 1 / 10000 := by
      rw [← hcast2, sqrt_lt_cast_iff (by norm_num)]
      norm_num
    refine ⟨fun hlt => ?_, fun hge hlt => ?_, fun hge => ?_⟩
    · have hv := hs1.1 hlt
      simp only [calculate_dynamic_fee, if_neg hnottwo, if_pos hv]
    · have hv2 := hs2.1 hlt
      have hv1 : ¬ feeVariance history pool_id < 1 / 1000000 := by
        intro hv1
        exact absurd (hs1.2 hv1) (not_lt.2 hge)
      simp only [calculate_dynamic_fee, if_neg hnottwo, if_neg hv1,
        if_pos hv2]
    · have hv2 : ¬ feeVariance history pool_id < 1 / 10000 := by
        intro hv2
        exact absurd (hs2.2 hv2) (not_lt.2 hge)
      have hv1 : ¬ feeVariance history pool_id < 1 / 1000000 := by
        intro hv1
        exact hv2 (lt_trans hv1 (by norm_num))
      simp only [calculate_dynamic_fee, if_neg hnottwo, if_neg hv1,
        if_neg hv2]

/-- Witness for C6: an empty price history has fewer than 2 samples, so the
fee falls back to the default 10 bps tier. -/
theorem claim_C6_witness :
    calculate_dynamic_fee [] "pool" = (10, 1 / 10) :=
  claim_C6_volatility_fee.1 [] "pool" (by decide)

/-- The in-window samples used by the TWAP endpoint (`twap_handler`):
`history.iter().filter(|p| p.pool_id == pool_id && p.timestamp >= cutoff)`
with `cutoff = now.saturating_sub(window)` (Nat subtraction saturates just
like `saturating_sub`).  Note the source imposes no upper bound
`timestamp ≤ now`; samples are recorded at the current time, so in-window
samples are at most `now` whenever the history's invariant holds. -/
def twapPoints (history : List PricePoint) (pool_id : String)
    (window now : Nat) : List PricePoint :=
  history.filter (fun p =>
    (p.pool_id == pool_id) && decide (now - window ≤ p.timestamp))

/-- The TWAP accumulation loop of `twap_handler` (lines 480–489): each
sample is weighted by the duration until the next sample — or until `now`
for the last sample — and every duration is floored at 1 time unit
(`duration.max(1)` is applied to every sample, not only the last).  Returns
`(weighted_sum, total_duration)`. -/
def twapSums (now : Nat) : List PricePoint → ℚ × Nat
  | [] => (0, 0)
  | [p] => (p.price * ((max (now - p.timestamp) 1 : Nat) : ℚ),
      max (now - p.timestamp) 1)
  | p :: q :: rest =>
      let d := max (q.timestamp - p.timestamp) 1
      let s := twapSums now (q :: rest)
      (p.price * (d : ℚ) + s.1, d + s.2)

/-- The TWAP query (`twap_handler`): `None` when no sample of the pool lies
in `[now − window, now]`, otherwise `weighted_sum / total_duration` (the
source's `total_duration > 0` fallback to the last price is kept verbatim,
and is proved dead below since every weight is at least 1). -/
def twap (history : List PricePoint) (pool_id : String)
    (window now : Nat) : Option ℚ :=
  let points := twapPoints history pool_id window now
  if points.isEmpty then none
  else
    let s := twapSums now points
    if 0 < s.2 then some (s.1 / (s.2 : ℚ))
    else some (((points.getLast?).map (fun p => p.price)).getD 0)

/-- Every sample contributes a weight of at least one time unit, so the
total duration of a nonempty sample list is positive. -/
theorem twapSums_total_pos (now : Nat) :
    ∀ l : List PricePoint, l ≠ [] → 0 < (twapSums now l).2
  | [], h => absurd rfl h
  | [p], _ => by
      simp only [twapSums]
      omega
  | p :: q :: rest, _ => by
      simp only [twapSums]
      have := twapSums_total_pos now (q :: rest) (by simp)
      omega

/-- Claim C7: the TWAP query over `[now − window, now]` weights each in-window
sample's price by the duration until the next in-window sample (or until
`now` for the last sample), each weight floored at 1 time unit, divides the
weighted sum by the total duration, and returns `None` exactly when no
sample falls in the window; in particular, for samples at `t = 0` price `1`
and `t = 100` price `2` queried with `window = 200` at `now = 100`, the
result is `102/101`, within `1/100` of `1`. -/
theorem claim_C7_twap :
    (∀ (history : List PricePoint) (pool_id : String) (window now : Nat),
        (twap history pool_id window now = none ↔
          twapPoints history pool_id window now = []) ∧
        (twapPoints history pool_id window now ≠ [] →
          twap history pool_id window now =
            some ((twapSums now (twapPoints history pool_id window now)).1 /
              ((twapSums now (twapPoints history pool_id window now)).2 : ℚ)))) ∧
    (twap [⟨0, "pool", 1, 1000, 1000⟩, ⟨100, "pool", 2, 1000, 1000⟩]
        "pool" 200 100 = some (102 / 101) ∧
      |(102 / 101 : ℚ) - 1| < 1 / 100) := by
  constructor
  · intro history pool_id window now
    constructor
    · constructor
      · intro h
        by_contra hne
        have hpos := twapSums_total_pos now _ hne
        simp only [twap, List.isEmpty_iff, if_neg hne, if_pos hpos] at h
        exact Option.noConfusion h
      · intro h
        simp only [twap, List.isEmpty_iff, if_pos h]
    · intro hne
      have hpos := twapSums_total_pos now _ hne
      simp only [twap, List.isEmpty_iff, if_neg hne, if_pos hpos]
  · constructor
    · norm_num [twap, twapPoints, twapSums]
    · rw [show (102 / 101 : ℚ) - 1 = 1 / 101 by norm_num,
        abs_of_pos (by norm_num)]
      norm_num

/-- Witness for C7: the two-sample history of the claim's example is
nonempty in the window, and the theorem's general formula applied there
produces the weighted average `102/101`. -/
theorem claim_C7_witness :
    twapPoints [⟨0, "pool", 1, 1000, 1000⟩, ⟨100, "pool", 2, 1000, 1000⟩]
        "pool" 200 100 ≠ [] ∧
      twap [⟨0, "pool", 1, 1000, 1000⟩, ⟨100, "pool", 2, 1000, 1000⟩]
          "pool" 200 100 =
        some ((twapSums 100 (twapPoints
            [⟨0, "pool", 1, 1000, 1000⟩, ⟨100, "pool", 2, 1000, 1000⟩]
            "pool" 200 100)).1 /
          ((twapSums 100 (twapPoints
            [⟨0, "pool", 1, 1000, 1000⟩, ⟨100, "pool", 2, 1000, 1000⟩]
            "pool" 200 100)).2 : ℚ)) :=
  ⟨by decide,
   ((claim_C7_twap.1 [⟨0, "pool", 1, 1000, 1000⟩,
      ⟨100, "pool", 2, 1000, 1000⟩] "pool" 200 100).2 (by decide))⟩

/-- Swap-intent metadata registered out-of-band for a pending note
(`struct SwapInfo` in `swap_daemon.rs`; the `amount_in`/`min_amount_out`
strings are modelled after the `parse()` in `execute_p2id_swap`). -/
structure SwapInfo where
  note_id : String
  pool_account_id : String
  sell_token_id : String
  buy_token_id : String
  amount_in : Nat
  min_amount_out : Nat
  user_account_id : String
  timestamp : Nat
deriving DecidableEq, Repr

/-- Reserve extraction from the pool vault in `execute_p2id_swap` (lines
784–800): scan the fungible assets, setting `reserve_in` on a sell-token
match and `reserve_out` on a buy-token match, later matches overwriting
earlier ones. -/
def findReserves (assets : List (String × Nat)) (sell buy : String) :
    Nat × Nat :=
  assets.foldl (fun acc a =>
    if a.1 == sell then (a.2, acc.2)
    else if a.1 == buy then (acc.1, a.2)
    else acc) (0, 0)

/-- Price-sample recording after a confirmed swap (`execute_p2id_swap`,
step 6): push the post-trade sample, then retain only samples newer than 24
hours (`now.saturating_sub(86400)`). -/
def recordPrice (history : List PricePoint) (pool_id : String)
    (new_reserve_in new_reserve_out now : Nat) : List PricePoint :=
  let sample : PricePoint :=
    { timestamp := now
      pool_id := pool_id
      price := (new_reserve_out : ℚ) / (new_reserve_in : ℚ)
      reserve_a := new_reserve_in
      reserve_b := new_reserve_out }
  (history ++ [sample]).filter (fun p => decide (now - 86400 ≤ p.timestamp))

/-- Failure modes of `execute_p2id_swap` that the embedding distinguishes. -/
inductive SwapErr
  /-- Error "Pool reserves not found for token pair" (either reserve is 0). -/
  | emptyPool
  /-- Slippage rejection: "Output {} less than minimum {}". -/
  | slippage (amount_out min_amount_out : Nat)
  /-- Timeout: `wait_for_transaction` exhausted its 60 polls ("Transaction timeout"). -/
  | txTimeout
  /-- Submission error: `submit_new_transaction` returned an error. -/
  | submitFailed
deriving DecidableEq, Repr

/-- The pricing decision of `execute_p2id_swap` that is fixed before any
ledger interaction. -/
structure SwapPlan where
  reserve_in : Nat
  reserve_out : Nat
  fee_bps : Nat
  amount_out : Nat
deriving DecidableEq, Repr

/-- The pure prefix of `execute_p2id_swap` (lines 784–831): read reserves by
token matching, reject an empty pool, compute the dynamic fee from the price
history, compute the AMM output, and reject on slippage — all before any
transaction is built or submitted. -/
def p2idSwapPlan (assets : List (String × Nat)) (history : List PricePoint)
    (pool_id : String) (info : SwapInfo) : Except SwapErr SwapPlan :=
  let r := findReserves assets info.sell_token_id info.buy_token_id
  if r.1 = 0 ∨ r.2 = 0 then .error .emptyPool
  else
    let fee := (calculate_dynamic_fee history pool_id).1
    let out := ammOut info.amount_in r.1 r.2 fee
    if out < info.min_amount_out then
      .error (.slippage out info.min_amount_out)
    else .ok ⟨r.1, r.2, fee, out⟩

/-- The swap daemon's in-memory state relevant to note settlement: the
intent registry (`swap_info_map`, an association by note id) and the price
oracle history. -/
structure EngineState where
  swap_info_map : List (String × SwapInfo)
  price_history : List PricePoint
deriving DecidableEq, Repr

/-- Outcome of the ledger interaction of one atomic swap transaction, fed to
the model as an explicit parameter (the ledger client is an external
collaborator). -/
inductive TxOutcome
  | confirmed
  | waitTimeout
  | submitFailed
deriving DecidableEq, Repr

/-- Result of handling one swap note. -/
structure SwapStepResult where
  /-- Whether `submit_new_transaction` was reached. -/
  submitted : Bool
  /-- Whether `execute_p2id_swap` returned `Ok` (the note counts as
  consumed and the intent is removed). -/
  settled : Bool
  err : Option SwapErr
deriving DecidableEq, Repr

/-- One swap note's settlement step: `execute_p2id_swap` combined with the
caller's bookkeeping in `consume_pool_notes` (lines 675–698).  On any error
— including a confirmation timeout after submission — the state is left
untouched: the intent stays in the registry and no price sample is
recorded.  Only on a confirmed settlement is the price sample appended and
the intent removed. -/
def processSwapNote (st : EngineState) (pool_id : String)
    (assets : List (String × Nat)) (note_id : String) (info : SwapInfo)
    (outcome : TxOutcome) (now : Nat) : EngineState × SwapStepResult :=
  match p2idSwapPlan assets st.price_history pool_id info with
  | .error e => (st, ⟨false, false, some e⟩)
  | .ok plan =>
    match outcome with
    | .submitFailed => (st, ⟨false, false, some .submitFailed⟩)
    | .waitTimeout => (st, ⟨true, false, some .txTimeout⟩)
    | .confirmed =>
        ({ swap_info_map := st.swap_info_map.filter
             (fun e => !(e.1 == note_id)),
           price_history := recordPrice st.price_history pool_id
             ((plan.reserve_in + info.amount_in) % U64)
             (plan.reserve_out - plan.amount_out) now },
         ⟨true, true, none⟩)

/-- Outcome of the ledger interaction for a plain (non-swap) P2ID note
consumption, matching the branch in `consume_pool_notes` lines 700–734:
inner wait success, inner wait failure, outer 30-second timeout, or a
submission error. -/
inductive PlainOutcome
  | confirmed
  | waitFailed
  | waitOuterTimeout
  | submitFailed
deriving DecidableEq, Repr

/-- Whether a plain-note consumption attempt increments `total_consumed`
(`consume_pool_notes` lines 714–729): a confirmed wait counts, a wait
*failure* does not, and the outer timeout counts — "Wait timeout (tx may
still succeed)" is treated as ambiguous success. -/
def plainConsumeCounted : PlainOutcome → Bool
  | .confirmed => true
  | .waitFailed => false
  | .waitOuterTimeout => true
  | .submitFailed => false

/-- Result of handling one discovered note in `consume_pool_notes`. -/
structure NoteStepResult where
  /-- Contribution to `total_consumed`. -/
  consumed : Nat
  /-- Whether any ledger transaction was submitted for this note. -/
  submitted : Bool
  /-- Present iff the swap path ran (`swap_info` matched). -/
  swapResult : Option SwapStepResult
deriving DecidableEq, Repr

/-- Per-note dispatch of `consume_pool_notes` (lines 667–738): a note whose
id has registered swap info runs the swap path; without swap info it is
consumed as a plain note (consume-only transaction, no swap logic) when
handling an explicit HTTP request (`auto_poll = false`), and skipped
entirely during the periodic background scan (`auto_poll = true`). -/
def processNote (st : EngineState) (pool_id : String)
    (assets : List (String × Nat)) (note_id : String) (auto_poll : Bool)
    (swapOutcome : TxOutcome) (plainOutcome : PlainOutcome) (now : Nat) :
    EngineState × NoteStepResult :=
  match st.swap_info_map.lookup note_id with
  | some info =>
      let r := processSwapNote st pool_id assets note_id info swapOutcome now
      (r.1, ⟨if r.2.settled then 1 else 0, r.2.submitted, some r.2⟩)
  | none =>
      if !auto_poll then
        (st, ⟨if plainConsumeCounted plainOutcome then 1 else 0,
          plainOutcome ≠ PlainOutcome.submitFailed, none⟩)
      else
        (st, ⟨0, false, none⟩)

/-- Bounded confirmation polling, `wait_for_transaction` (lines 1098–1114): poll the transaction store up
to 60 times (500 ms apart, ≈30 s); succeed as soon as the transaction is
observed, give up after the 60th poll.  `txVisibleAtPoll i` says whether the
transaction is observable at the `i`-th poll. -/
def waitForTransaction (txVisibleAtPoll : Nat → Bool) : Bool :=
  (List.range 60).any txVisibleAtPoll

/-- Claim C2: if the computed swap output is strictly below the intent's
`min_amount_out`, settlement fails with the slippage error before any
transaction is submitted and before any state mutation — no price sample is
recorded and the intent stays in the registry — regardless of what the
ledger would have answered. -/
theorem claim_C2_slippage_rejection :
    ∀ (st : EngineState) (pool_id : String) (assets : List (String × Nat))
      (note_id : String) (info : SwapInfo) (outcome : TxOutcome) (now : Nat),
      (findReserves assets info.sell_token_id info.buy_token_id).1 ≠ 0 →
      (findReserves assets info.sell_token_id info.buy_token_id).2 ≠ 0 →
      ammOut info.amount_in
          (findReserves assets info.sell_token_id info.buy_token_id).1
          (findReserves assets info.sell_token_id info.buy_token_id).2
          (calculate_dynamic_fee st.price_history pool_id).1 <
        info.min_amount_out →
      processSwapNote st pool_id assets note_id info outcome now =
        (st, ⟨false, false, some (.slippage
          (ammOut info.amount_in
            (findReserves assets info.sell_token_id info.buy_token_id).1
            (findReserves assets info.sell_token_id info.buy_token_id).2
            (calculate_dynamic_fee st.price_history pool_id).1)
          info.min_amount_out)⟩) := by
  intro st pool_id assets note_id info outcome now h1 h2 hslip
  simp only [processSwapNote, p2idSwapPlan]
  rw [if_neg (by tauto), if_pos hslip]

/-- A registered intent whose `min_amount_out` is one unit above the true
output at reserves `(1000, 1000)` with the default 10 bps fee (the spec's
slippage-rejection test vector: output `90`, minimum `91`). -/
def slipInfo : SwapInfo :=
  ⟨"note1", "pool", "S", "B", 100, 91, "user", 0⟩

/-- Witness for C2 at the spec's test vector: reserves `(1000, 1000)`,
fee 10 bps (empty history), `amount_in = 100`, `min_amount_out = 91` — one
above the computed output `90`.  The step rejects with the slippage error,
submits nothing, and leaves the registry and price history untouched. -/
theorem claim_C2_witness :
    processSwapNote ⟨[("note1", slipInfo)], []⟩ "pool"
        [("S", 1000), ("B", 1000)] "note1" slipInfo .confirmed 0 =
      (⟨[("note1", slipInfo)], []⟩, ⟨false, false, some (.slippage 90 91)⟩) := by
  have h := claim_C2_slippage_rejection ⟨[("note1", slipInfo)], []⟩ "pool"
    [("S", 1000), ("B", 1000)] "note1" slipInfo .confirmed 0
    (by decide) (by decide) (by decide)
  rw [h]
  decide

/-- Claim C4: a discovered consumable note with no matching registered intent
is never consumed during the periodic background scan (`auto_poll = true`:
no submission, nothing counted, state untouched), whereas under an explicit
HTTP consume request (`auto_poll = false`) the same note is consumed as a
plain deposit-style note without swap logic (no swap step runs). -/
theorem claim_C4_unmatched_note :
    ∀ (st : EngineState) (pool_id : String) (assets : List (String × Nat))
      (note_id : String) (swapOutcome : TxOutcome)
      (plainOutcome : PlainOutcome) (now : Nat),
      st.swap_info_map.lookup note_id = none →
      processNote st pool_id assets note_id true swapOutcome plainOutcome now
          = (st, ⟨0, false, none⟩) ∧
      processNote st pool_id assets note_id false swapOutcome .confirmed now
          = (st, ⟨1, true, none⟩) := by
  intro st pool_id assets note_id swapOutcome plainOutcome now h
  constructor
  · simp only [processNote, h]
    rfl
  · simp only [processNote, h]
    rfl

/-- Witness for C4: an empty intent registry matches no note id; the note is
skipped under auto-poll and plainly consumed under an HTTP request. -/
theorem claim_C4_witness :
    processNote ⟨[], []⟩ "pool" [] "note1" true .confirmed .confirmed 0
        = (⟨[], []⟩, ⟨0, false, none⟩) ∧
      processNote ⟨[], []⟩ "pool" [] "note1" false .confirmed .confirmed 0
        = (⟨[], []⟩, ⟨1, true, none⟩) :=
  claim_C4_unmatched_note ⟨[], []⟩ "pool" [] "note1" .confirmed .confirmed 0
    (by decide)

/-- A registered intent that passes the slippage check at reserves
`(1000, 1000)` with the default 10 bps fee (output `90`, minimum `90`). -/
def okInfo : SwapInfo :=
  ⟨"note1", "pool", "S", "B", 100, 90, "user", 0⟩

/-- Claim C5 (amended): confirmation waiting is bounded: `wait_for_transaction`
succeeds iff the transaction becomes observable within its 60 polls
(500 ms apart, ≈30 s).  When that bound elapses for a **swap** transaction,
the outcome is reported as a *failure* (`txTimeout`, `settled = false`) and
the intent is left in the registry, so the work item *is* retried on a later
cycle; only the plain-note consumption path treats the elapsed bound as
ambiguous success (the note counts as consumed). -/
theorem claim_C5_confirmation_timeout :
    (∀ vis : Nat → Bool,
        waitForTransaction vis = true ↔ ∃ i, i < 60 ∧ vis i = true) ∧
    (∀ (st : EngineState) (pool_id : String) (assets : List (String × Nat))
        (note_id : String) (info : SwapInfo) (plan : SwapPlan) (now : Nat),
        p2idSwapPlan assets st.price_history pool_id info = .ok plan →
        processSwapNote st pool_id assets note_id info .waitTimeout now =
          (st, ⟨true, false, some .txTimeout⟩)) ∧
    plainConsumeCounted .waitOuterTimeout = true := by
  refine ⟨?_, ?_, rfl⟩
  · intro vis
    simp [waitForTransaction, List.any_eq_true, List.mem_range]
  · intro st pool_id assets note_id info plan now h
    simp only [processSwapNote, h]

/-- Witness for C5: a transaction visible only at the final (60th) poll is
still caught by the bounded wait, and a concrete passing swap whose
confirmation wait times out is reported as a timeout failure with the intent
retained. -/
theorem claim_C5_witness :
    waitForTransaction (fun i => i == 59) = true ∧
      processSwapNote ⟨[("note1", okInfo)], []⟩ "pool"
          [("S", 1000), ("B", 1000)] "note1" okInfo .waitTimeout 0 =
        (⟨[("note1", okInfo)], []⟩, ⟨true, false, some .txTimeout⟩) :=
  ⟨(claim_C5_confirmation_timeout.1 (fun i => i == 59)).2
      ⟨59, by decide, by decide⟩,
   claim_C5_confirmation_timeout.2.1 ⟨[("note1", okInfo)], []⟩ "pool"
      [("S", 1000), ("B", 1000)] "note1" okInfo ⟨1000, 1000, 10, 90⟩ 0
      rfl⟩

/-- Counterexample to C5 as stated: a concrete swap (reserves
`(1000, 1000)`, fee 10 bps, output `90` ≥ minimum `90`) is submitted and its
confirmation wait times out; the outcome is reported as a **failure**
(`settled = false`, error `txTimeout`) — not as ambiguous success — and the
intent is **still registered**, so the engine will reprocess it on a later
cycle. -/
theorem claim_C5_counterexample :
    (processSwapNote ⟨[("note1", okInfo)], []⟩ "pool"
        [("S", 1000), ("B", 1000)] "note1" okInfo .waitTimeout 0).2.settled
        = false ∧
      (processSwapNote ⟨[("note1", okInfo)], []⟩ "pool"
        [("S", 1000), ("B", 1000)] "note1" okInfo .waitTimeout 0).2.err
        = some .txTimeout ∧
      (processSwapNote ⟨[("note1", okInfo)], []⟩ "pool"
        [("S", 1000), ("B", 1000)] "note1" okInfo
        .waitTimeout 0).1.swap_info_map.lookup "note1" = some okInfo := by
  refine ⟨by decide, by decide, by decide⟩

/-- A resting limit order (`struct LimitOrder` in `swap_daemon.rs`).  The
status is the source's string field with values `"Pending"`, `"Filled"`,
`"Expired"`, `"Cancelled"`; `target_price` is an `f64` modelled over `ℚ`
(never read by the sweep logic, which compares AMM output against
`min_amount_out`). -/
structure LimitOrder where
  order_id : String
  note_id : String
  pool_id : String
  user_account_id : String
  sell_token_id : String
  buy_token_id : String
  amount_in : Nat
  target_price : ℚ
  min_amount_out : Nat
  created_at : Nat
  expires_at : Nat
  status : String
deriving DecidableEq, Repr

/-- The expiry pass at the top of `check_limit_orders` (lines 987–993):
every still-`Pending` order whose `expires_at` lies strictly in the past is
marked `Expired`. -/
def markExpired (now : Nat) (orders : List LimitOrder) : List LimitOrder :=
  orders.map (fun o =>
    if o.status = "Pending" ∧ o.expires_at < now then
      { o with status := "Expired" } else o)

/-- Status write through `orders.iter_mut().find(|o| o.order_id == oid)` (the fill bookkeeping in `check_limit_orders`, lines 1076–1079): the
*first* order with the matching id — whatever its current status — gets the
new status. -/
def setStatusFirst (oid s : String) : List LimitOrder → List LimitOrder
  | [] => []
  | o :: rest =>
      if o.order_id = oid then { o with status := s } :: rest
      else o :: setStatusFirst oid s rest

/-- One sweep of `check_limit_orders`: mark expired orders, snapshot the
remaining `Pending` orders, then for each snapshot order whose execution
succeeds mark the first order with its id as `Filled`.  Whether a snapshot
order actually fills (reserve lookup, AMM output ≥ `min_amount_out`,
registered swap info, note discovery, settlement success) is abstracted as
the oracle `fills`; the status discipline is the source's. -/
def checkLimitOrdersSweep (now : Nat) (fills : LimitOrder → Bool)
    (orders : List LimitOrder) : List LimitOrder :=
  let marked := markExpired now orders
  let pending := marked.filter (fun o => o.status == "Pending")
  pending.foldl (fun os o =>
    if fills o then setStatusFirst o.order_id "Filled" os else os) marked

/-- Model of `cancel_limit_order_handler` (lines 950–969): cancel the first order
matching the id **and** currently `Pending`; report success, else leave the
book unchanged and report failure (HTTP 404). -/
def cancelOrder (oid : String) : List LimitOrder → List LimitOrder × Bool
  | [] => ([], false)
  | o :: rest =>
      if o.order_id = oid ∧ o.status = "Pending" then
        ({ o with status := "Cancelled" } :: rest, true)
      else
        let r := cancelOrder oid rest
        (o :: r.1, r.2)

theorem setStatusFirst_get?_of_ne (oid s : String) :
    ∀ (l : List LimitOrder) (i : Nat) (e : LimitOrder),
      l.get? i = some e → e.order_id ≠ oid →
      (setStatusFirst oid s l).get? i = some e
  | [], i, e, h, _ => by simp at h
  | o :: rest, 0, e, h, hne => by
      simp only [List.get?] at h
      obtain rfl : o = e := by injection h
      simp only [setStatusFirst, if_neg hne]
      rfl
  | o :: rest, i + 1, e, h, hne => by
      simp only [List.get?] at h
      by_cases hid : o.order_id = oid
      · simp only [setStatusFirst, if_pos hid]
        exact h
      · simp only [setStatusFirst, if_neg hid]
        exact setStatusFirst_get?_of_ne oid s rest i e h hne

theorem foldl_fill_get? (fills : LimitOrder → Bool) :
    ∀ (pending : List LimitOrder) (os : List LimitOrder) (i : Nat)
      (e : LimitOrder),
      os.get? i = some e →
      (∀ p ∈ pending, p.order_id ≠ e.order_id) →
      (pending.foldl (fun os o =>
        if fills o then setStatusFirst o.order_id "Filled" os else os)
          os).get? i = some e
  | [], os, i, e, h, _ => h
  | p :: rest, os, i, e, h, hdis => by
      simp only [List.foldl]
      apply foldl_fill_get? fills rest _ i e _ (fun q hq => hdis q (by simp [hq]))
      by_cases hf : fills p
      · simp only [if_pos hf]
        exact setStatusFirst_get?_of_ne _ _ os i e h
          (fun hc => hdis p (by simp) (hc ▸ rfl))
      · simp only [if_neg hf]
        exact h

/-- The expiry pass preserves every order's id. -/
theorem markExpired_map_id (now : Nat) (orders : List LimitOrder) :
    (markExpired now orders).map (fun o => o.order_id) =
      orders.map (fun o => o.order_id) := by
  unfold markExpired
  rw [List.map_map]
  apply List.map_congr_left
  intro o _
  by_cases h : o.status = "Pending" ∧ o.expires_at < now
  · simp [h]
  · simp [if_neg h]

/-- Core preservation lemma for the sweep: when order ids are globally
distinct, an order that is **not** `Pending` after the expiry pass is
untouched by the fill loop. -/
theorem sweep_preserves_nonpending {now : Nat} {fills : LimitOrder → Bool}
    {orders : List LimitOrder} {i : Nat} {e : LimitOrder}
    (hnodup : (orders.map (fun o => o.order_id)).Nodup)
    (hm : (markExpired now orders).get? i = some e)
    (hs : e.status ≠ "Pending") :
    (checkLimitOrdersSweep now fills orders).get? i = some e := by
  unfold checkLimitOrdersSweep
  apply foldl_fill_get? fills _ _ i e hm
  intro p hp hpe
  have hmem : p ∈ markExpired now orders := List.mem_of_mem_filter hp
  have hpstat : p.status = "Pending" := by
    have := List.of_mem_filter hp
    simpa using this
  have hnodup' : ((markExpired now orders).map (fun o => o.order_id)).Nodup := by
    rw [markExpired_map_id]
    exact hnodup
  obtain ⟨j, hj⟩ := List.mem_iff_get?.1 hmem
  have hij : (((markExpired now orders).map (fun o => o.order_id)).get? i) =
      (((markExpired now orders).map (fun o => o.order_id)).get? j) := by
    rw [List.get?_map, List.get?_map, hm, hj]
    simp [hpe]
  have hlt : i < ((markExpired now orders).map (fun o => o.order_id)).length := by
    rw [List.length_map]
    obtain ⟨hlen, -⟩ := List.get?_eq_some.1 hm
    exact hlen
  have : i = j := List.get?_inj hlt hnodup' hij
  subst this
  rw [hm] at hj
  injection hj with hj
  rw [hj] at hs
  exact hs hpstat

/-- Cancellation never touches an order that is not `Pending`. -/
theorem cancelOrder_get?_of_nonpending (oid : String) :
    ∀ (l : List LimitOrder) (i : Nat) (o : LimitOrder),
      l.get? i = some o → o.status ≠ "Pending" →
      (cancelOrder oid l).1.get? i = some o
  | [], i, o, h, _ => by simp at h
  | a :: rest, i, o, h, hs => by
      simp only [cancelOrder]
      by_cases hc : a.order_id = oid ∧ a.status = "Pending"
      · rw [if_pos hc]
        cases i with
        | zero =>
            simp only [List.get?] at h
            injection h with h
            rw [← h] at hs
            exact absurd hc.2 hs
        | succ n =>
            simp only [List.get?] at h ⊢
            exact h
      · rw [if_neg hc]
        cases i with
        | zero =>
            simpa using h
        | succ n =>
            simp only [List.get?] at h ⊢
            exact cancelOrder_get?_of_nonpending oid rest n o h hs

/-- Cancellation reports success exactly when the book holds a `Pending`
order with the requested id. -/
theorem cancelOrder_succeeds_iff (oid : String) :
    ∀ l : List LimitOrder, (cancelOrder oid l).2 = true ↔
      ∃ o ∈ l, o.order_id = oid ∧ o.status = "Pending"
  | [] => by simp [cancelOrder]
  | a :: rest => by
      simp only [cancelOrder]
      by_cases hc : a.order_id = oid ∧ a.status = "Pending"
      · rw [if_pos hc]
        constructor
        · intro _
          exact ⟨a, List.mem_cons_self a rest, hc.1, hc.2⟩
        · intro _
          rfl
      · rw [if_neg hc]
        constructor
        · intro h
          obtain ⟨o, ho, h1, h2⟩ := (cancelOrder_succeeds_iff oid rest).1 h
          exact ⟨o, List.mem_cons_of_mem a ho, h1, h2⟩
        · rintro ⟨o, ho, h1, h2⟩
          rcases List.mem_cons.1 ho with rfl | ho
          · exact absurd ⟨h1, h2⟩ hc
          · exact (cancelOrder_succeeds_iff oid rest).2 ⟨o, ho, h1, h2⟩

/-- Claim C9 (amended): provided order ids are pairwise distinct: a `Pending`
limit order whose `expires_at` lies in the past is marked `Expired` by the
sweep before any price evaluation (whatever the fill oracle would decide, it
is never filled), an order in a terminal status (`Filled`, `Expired`,
`Cancelled` — anything other than `Pending`) is left untouched by the sweep,
and cancellation never touches a non-`Pending` order and succeeds exactly
when a `Pending` order with the requested id exists.  (With duplicate order
ids — reachable, since ids are derived from a note-id prefix plus the
creation second — the fill step can overwrite the first duplicate even if it
is terminal; see the counterexample.) -/
theorem claim_C9_limit_order_lifecycle :
    (∀ (orders : List LimitOrder) (now : Nat) (fills : LimitOrder → Bool)
        (i : Nat) (o : LimitOrder),
        (orders.map (fun o => o.order_id)).Nodup →
        orders.get? i = some o → o.status = "Pending" → o.expires_at < now →
        (checkLimitOrdersSweep now fills orders).get? i =
          some { o with status := "Expired" }) ∧
    (∀ (orders : List LimitOrder) (now : Nat) (fills : LimitOrder → Bool)
        (i : Nat) (o : LimitOrder),
        (orders.map (fun o => o.order_id)).Nodup →
        orders.get? i = some o → o.status ≠ "Pending" →
        (checkLimitOrdersSweep now fills orders).get? i = some o) ∧
    (∀ (oid : String) (l : List LimitOrder) (i : Nat) (o : LimitOrder),
        l.get? i = some o → o.status ≠ "Pending" →
        (cancelOrder oid l).1.get? i = some o) ∧
    (∀ (oid : String) (l : List LimitOrder),
        (cancelOrder oid l).2 = true ↔
          ∃ o ∈ l, o.order_id = oid ∧ o.status = "Pending") := by
  refine ⟨?_, ?_, cancelOrder_get?_of_nonpending, cancelOrder_succeeds_iff⟩
  · intro orders now fills i o hnd h hp he
    have hm : (markExpired now orders).get? i =
        some { o with status := "Expired" } := by
      unfold markExpired
      rw [List.get?_map, h]
      simp only [Option.map_some']
      rw [if_pos ⟨hp, he⟩]
    exact sweep_preserves_nonpending hnd hm (by simp)
  · intro orders now fills i o hnd h hs
    have hm : (markExpired now orders).get? i = some o := by
      unfold markExpired
      rw [List.get?_map, h]
      simp only [Option.map_some']
      rw [if_neg (fun hc => hs hc.1)]
    exact sweep_preserves_nonpending hnd hm hs

/-- A pending limit order that expired at `t = 10`. -/
def loPend : LimitOrder :=
  ⟨"Y", "note1", "pool", "user", "S", "B", 100, 1, 90, 0, 10, "Pending"⟩

/-- Witness for C9: at `now = 50` the order that expired at `t = 10` is
marked `Expired` by the sweep even though the fill oracle would fill
everything, and cancelling it afterwards fails (it is no longer pending). -/
theorem claim_C9_witness :
    (checkLimitOrdersSweep 50 (fun _ => true) [loPend]).get? 0 =
      some { loPend with status := "Expired" } :=
  claim_C9_limit_order_lifecycle.1 [loPend] 50 (fun _ => true) 0 loPend
    (by decide) rfl rfl (by decide)

/-- An order already in the terminal `Expired` status, with id `"X"`. -/
def loExp : LimitOrder :=
  ⟨"X", "note1", "pool", "user", "S", "B", 100, 1, 90, 0, 10, "Expired"⟩

/-- A second, still-pending order that shares the id `"X"` (reachable: ids
are `LO-{note-prefix}-{second}`, so two orders on the same note created in
the same second collide). -/
def loDup : LimitOrder :=
  ⟨"X", "note2", "pool", "user", "S", "B", 100, 1, 90, 0, 1000, "Pending"⟩

/-- Counterexample to C9 as stated: with two orders sharing id `"X"` — the
first already `Expired`, the second `Pending` and triggering — the fill
bookkeeping (`find` by id only) marks the **first** order `Filled`: an order
in a terminal status transitions again, and an `Expired` order is
effectively overwritten as filled. -/
theorem claim_C9_counterexample :
    loExp.status = "Expired" ∧
      (checkLimitOrdersSweep 50 (fun _ => true) [loExp, loDup]).get? 0 =
        some { loExp with status := "Filled" } :=
  ⟨rfl, rfl⟩

/-- Per-user deposit tracking (`struct UserPoolDeposit` in
`liquidity_daemon.rs`). -/
structure UserPoolDeposit where
  user_account_id : String
  pool_account_id : String
  total_deposited : Nat
  deposit_count : Nat
  last_deposit_time : Nat
deriving DecidableEq, Repr

/-- Deposit-intent metadata (`struct DepositInfo` in `liquidity_daemon.rs`;
`amount` is modelled after `info.amount.parse().unwrap_or(0)`). -/
structure DepositInfo where
  note_id : String
  pool_account_id : String
  token_id : String
  amount : Nat
  user_account_id : String
  min_lp_amount_out : Nat
  timestamp : Nat
deriving DecidableEq, Repr

/-- Replace the value of the first entry with the given key (the in-place
mutation of a `HashMap` entry; keys are unique by construction). -/
def setEntryFirst (key : String) (v : UserPoolDeposit) :
    List (String × UserPoolDeposit) → List (String × UserPoolDeposit)
  | [] => []
  | e :: rest =>
      if e.1 = key then (key, v) :: rest else e :: setEntryFirst key v rest

/-- The deposit-tracking block of `consume_pool_notes` in
`liquidity_daemon.rs` (identical in the confirmed and the timeout branch):
if the parsed amount is positive, bump the entry keyed `"{user}:{pool}"` —
inserting a fresh zero entry first when absent — adding the amount to
`total_deposited` (`u64` add), incrementing `deposit_count` (`u32` add) and
stamping `last_deposit_time`; the map is then persisted
(`save_user_deposits`). -/
def trackDeposit (deps : List (String × UserPoolDeposit))
    (info : DepositInfo) (pool_id : String) (now : Nat) :
    List (String × UserPoolDeposit) :=
  if info.amount = 0 then deps
  else
    let key := info.user_account_id ++ ":" ++ pool_id
    match deps.lookup key with
    | some e =>
        setEntryFirst key
          { e with
            total_deposited := (e.total_deposited + info.amount) % U64
            deposit_count := (e.deposit_count + 1) % 2 ^ 32
            last_deposit_time := now } deps
    | none =>
        deps ++ [(key,
          { user_account_id := info.user_account_id
            pool_account_id := pool_id
            total_deposited := (0 + info.amount) % U64
            deposit_count := (0 + 1) % 2 ^ 32
            last_deposit_time := now })]

/-- Outcome of the ledger interaction for one deposit-note consumption in
the liquidity daemon (`consume_pool_notes`, lines 593–667): the inner wait
succeeded, the inner wait returned an error, the outer 30-second timeout
fired, or the submission itself failed. -/
inductive DepOutcome
  | confirmed
  | waitFailed
  | waitTimeout
  | submitFailed
deriving DecidableEq, Repr

/-- Bookkeeping result of one deposit-note consumption attempt. -/
structure DepStepResult where
  /-- Contribution to `total_consumed`. -/
  consumed : Nat
  /-- Whether `save_user_deposits` (persistence) ran. -/
  saved : Bool
deriving DecidableEq, Repr

/-- One deposit note's consumption step in the liquidity daemon's
`consume_pool_notes`.  The confirmed branch (lines 601–630) and the
outer-timeout branch (lines 634–661) are deliberately transcribed
separately, mirroring the duplicated blocks in the source: both count the
note as consumed and track the deposit; a wait *failure* or a submission
failure counts nothing and mutates nothing. -/
def processDepositNote (deps : List (String × UserPoolDeposit))
    (infoOpt : Option DepositInfo) (pool_id : String) (outcome : DepOutcome)
    (now : Nat) : List (String × UserPoolDeposit) × DepStepResult :=
  match outcome with
  | .confirmed =>
      match infoOpt with
      | some info =>
          if info.amount ≠ 0 then
            (trackDeposit deps info pool_id now, ⟨1, true⟩)
          else (deps, ⟨1, false⟩)
      | none => (deps, ⟨1, false⟩)
  | .waitTimeout =>
      match infoOpt with
      | some info =>
          if info.amount ≠ 0 then
            (trackDeposit deps info pool_id now, ⟨1, true⟩)
          else (deps, ⟨1, false⟩)
      | none => (deps, ⟨1, false⟩)
  | .waitFailed => (deps, ⟨0, false⟩)
  | .submitFailed => (deps, ⟨0, false⟩)

/-- Claim C10: when the bounded confirmation wait for a deposit-note
consumption times out, the liquidity daemon still counts the note as
consumed and increments (and persists) the user's tracked cumulative
deposit exactly as in the confirmed case — so an unconfirmed deposit raises
the user's withdrawal bound just like a confirmed one. -/
theorem claim_C10_timeout_tracks_deposit :
    (∀ (deps : List (String × UserPoolDeposit)) (infoOpt : Option DepositInfo)
        (pool_id : String) (now : Nat),
        processDepositNote deps infoOpt pool_id .waitTimeout now =
          processDepositNote deps infoOpt pool_id .confirmed now ∧
        (processDepositNote deps infoOpt pool_id .waitTimeout now).2.consumed
          = 1) ∧
    (∀ (deps : List (String × UserPoolDeposit)) (info : DepositInfo)
        (pool_id : String) (now : Nat),
        info.amount ≠ 0 →
        processDepositNote deps (some info) pool_id .waitTimeout now =
          (trackDeposit deps info pool_id now, ⟨1, true⟩)) := by
  constructor
  · intro deps infoOpt pool_id now
    refine ⟨rfl, ?_⟩
    cases infoOpt with
    | none => rfl
    | some info =>
        simp only [processDepositNote]
        by_cases h : info.amount ≠ 0
        · rw [if_pos h]
        · rw [if_neg h]
  · intro deps info pool_id now h
    simp only [processDepositNote, if_pos h]

/-- A concrete deposit of 1000 units by `"user"`. -/
def exDepInfo : DepositInfo :=
  ⟨"note1", "pool", "T", 1000, "user", 0, 0⟩

/-- Witness for C10: a fresh 1000-unit deposit whose confirmation wait timed
out is tracked and counted exactly as a confirmed one. -/
theorem claim_C10_witness :
    processDepositNote [] (some exDepInfo) "pool" .waitTimeout 7 =
        processDepositNote [] (some exDepInfo) "pool" .confirmed 7 ∧
      processDepositNote [] (some exDepInfo) "pool" .waitTimeout 7 =
        (trackDeposit [] exDepInfo "pool" 7, ⟨1, true⟩) :=
  ⟨(claim_C10_timeout_tracks_deposit.1 [] (some exDepInfo) "pool" 7).1,
   claim_C10_timeout_tracks_deposit.2 [] exDepInfo "pool" 7 (by decide)⟩

/-- Failure modes of `execute_withdraw` in `liquidity_daemon.rs`. -/
inductive WithdrawErr
  /-- Error "No tracked deposits found for user ... in pool ...". -/
  | noDeposits
  /-- Error "Pool must have at least 2 token reserves". -/
  | tooFewReserves
  /-- Error "Pool has no liquidity". -/
  | noLiquidity
  /-- Error "Calculated output amounts are both 0". -/
  | zeroOutputs
deriving DecidableEq, Repr

/-- The per-leg payouts of a successful withdrawal. -/
structure WithdrawOk where
  token_a_out : Nat
  token_b_out : Nat
deriving DecidableEq, Repr

/-- Model of `execute_withdraw` (`liquidity_daemon.rs`, lines 700–863), ledger
effects elided (the two payout transactions are submitted per leg, and the
bookkeeping below runs regardless of their confirmation outcome): look up
the user's tracked deposit under `"{user}:{pool}"` and fail if absent or
zero; clamp the requested amount to the tracked deposit; take the first two
vault reserves; `total = reserve_a + reserve_b` (`u64` add); per-leg payout
`clamped × reserve_leg / total` in `u128`, cast to `u64`; fail if both are
zero; finally decrement the tracked deposit by the *sum of the payouts*,
clamping at zero, and return the payouts with the updated map. -/
def executeWithdraw (deps : List (String × UserPoolDeposit))
    (user_id pool_id : String) (reserves : List (String × Nat))
    (lp_amount : Nat) :
    Except WithdrawErr (WithdrawOk × List (String × UserPoolDeposit)) :=
  let key := user_id ++ ":" ++ pool_id
  let max_withdrawal := ((deps.lookup key).map
    (fun d => d.total_deposited)).getD 0
  if max_withdrawal = 0 then .error .noDeposits
  else
    let actual_lp_amount := min lp_amount max_withdrawal
    match reserves with
    | (_, reserve_a) :: (_, reserve_b) :: _ =>
        let total_liquidity := (reserve_a + reserve_b) % U64
        if total_liquidity = 0 then .error .noLiquidity
        else
          let token_a_out := actual_lp_amount * reserve_a / total_liquidity % U64
          let token_b_out := actual_lp_amount * reserve_b / total_liquidity % U64
          if token_a_out = 0 ∧ token_b_out = 0 then .error .zeroOutputs
          else
            let withdrawn := (token_a_out + token_b_out) % U64
            let deps' := match deps.lookup key with
              | some e =>
                  setEntryFirst key
                    { e with total_deposited :=
                        if e.total_deposited ≤ withdrawn then 0
                        else e.total_deposited - withdrawn } deps
              | none => deps
            .ok (⟨token_a_out, token_b_out⟩, deps')
    | _ => .error .tooFewReserves

/-- Claim C3 (amended): for a withdrawal request exceeding the user's tracked
deposit `D` (with `u64`-sized quantities and two positive-total reserves):
the request is clamped to `D`, each per-leg payout equals
`floor(D × reserve_leg / (reserve_a + reserve_b))`, and the tracked balance
afterwards equals `D − (payout_a + payout_b)` — which is `0` exactly when
the two floored payouts sum to `D`, not in general (flooring can leave a
remainder; see the counterexample). -/
theorem claim_C3_withdrawal_clamp :
    ∀ (deps : List (String × UserPoolDeposit)) (user_id pool_id : String)
      (fa fb : String) (reserve_a reserve_b : Nat)
      (rest : List (String × Nat)) (lp_amount : Nat) (d : UserPoolDeposit),
      deps.lookup (user_id ++ ":" ++ pool_id) = some d →
      0 < d.total_deposited → d.total_deposited < U64 →
      d.total_deposited ≤ lp_amount →
      0 < reserve_a + reserve_b → reserve_a + reserve_b < U64 →
      ¬ (d.total_deposited * reserve_a / (reserve_a + reserve_b) = 0 ∧
          d.total_deposited * reserve_b / (reserve_a + reserve_b) = 0) →
      executeWithdraw deps user_id pool_id
          ((fa, reserve_a) :: (fb, reserve_b) :: rest) lp_amount =
        .ok (⟨d.total_deposited * reserve_a / (reserve_a + reserve_b),
              d.total_deposited * reserve_b / (reserve_a + reserve_b)⟩,
          setEntryFirst (user_id ++ ":" ++ pool_id)
            { d with total_deposited := d.total_deposited -
                (d.total_deposited * reserve_a / (reserve_a + reserve_b) +
                  d.total_deposited * reserve_b / (reserve_a + reserve_b)) }
            deps) := by
  intro deps user_id pool_id fa fb reserve_a reserve_b rest lp_amount d
    hlook hpos hlt hclamp htot htotlt hnz
  have htotpos : (reserve_a + reserve_b) % U64 = reserve_a + reserve_b :=
    Nat.mod_eq_of_lt htotlt
  have hmin : min lp_amount d.total_deposited = d.total_deposited :=
    min_eq_right hclamp
  have haout_le : d.total_deposited * reserve_a / (reserve_a + reserve_b) ≤
      d.total_deposited := by
    apply Nat.div_le_of_le_mul
    calc d.total_deposited * reserve_a
        ≤ d.total_deposited * (reserve_a + reserve_b) :=
          Nat.mul_le_mul_left _ (Nat.le_add_right _ _)
    _ = (reserve_a + reserve_b) * d.total_deposited := Nat.mul_comm _ _
  have hbout_le : d.total_deposited * reserve_b / (reserve_a + reserve_b) ≤
      d.total_deposited := by
    apply Nat.div_le_of_le_mul
    calc d.total_deposited * reserve_b
        ≤ d.total_deposited * (reserve_a + reserve_b) :=
          Nat.mul_le_mul_left _ (Nat.le_add_left _ _)
    _ = (reserve_a + reserve_b) * d.total_deposited := Nat.mul_comm _ _
  have haout_lt : d.total_deposited * reserve_a / (reserve_a + reserve_b) <
      U64 := lt_of_le_of_lt haout_le hlt
  have hbout_lt : d.total_deposited * reserve_b / (reserve_a + reserve_b) <
      U64 := lt_of_le_of_lt hbout_le hlt
  have hsum_le : d.total_deposited * reserve_a / (reserve_a + reserve_b) +
      d.total_deposited * reserve_b / (reserve_a + reserve_b) ≤
      d.total_deposited := by
    have h1 : (d.total_deposited * reserve_a / (reserve_a + reserve_b) +
        d.total_deposited * reserve_b / (reserve_a + reserve_b)) *
        (reserve_a + reserve_b) ≤
        d.total_deposited * (reserve_a + reserve_b) := by
      calc (d.total_deposited * reserve_a / (reserve_a + reserve_b) +
          d.total_deposited * reserve_b / (reserve_a + reserve_b)) *
          (reserve_a + reserve_b)
          = d.total_deposited * reserve_a / (reserve_a + reserve_b) *
              (reserve_a + reserve_b) +
            d.total_deposited * reserve_b / (reserve_a + reserve_b) *
              (reserve_a + reserve_b) := Nat.add_mul _ _ _
      _ ≤ d.total_deposited * reserve_a + d.total_deposited * reserve_b :=
          Nat.add_le_add (Nat.div_mul_le_self _ _) (Nat.div_mul_le_self _ _)
      _ = d.total_deposited * (reserve_a + reserve_b) :=
          (Nat.mul_add _ _ _).symm
    exact Nat.le_of_mul_le_mul_right h1 htot
  have hsum_lt : d.total_deposited * reserve_a / (reserve_a + reserve_b) +
      d.total_deposited * reserve_b / (reserve_a + reserve_b) < U64 :=
    lt_of_le_of_lt hsum_le hlt
  simp only [executeWithdraw, hlook, Option.map_some', Option.getD_some]
  rw [if_neg (by omega), hmin, htotpos, if_neg (by omega),
    Nat.mod_eq_of_lt haout_lt, Nat.mod_eq_of_lt hbout_lt, if_neg hnz,
    Nat.mod_eq_of_lt hsum_lt]
  have hdec : (if d.total_deposited ≤
      d.total_deposited * reserve_a / (reserve_a + reserve_b) +
        d.total_deposited * reserve_b / (reserve_a + reserve_b) then 0
    else d.total_deposited -
      (d.total_deposited * reserve_a / (reserve_a + reserve_b) +
        d.total_deposited * reserve_b / (reserve_a + reserve_b))) =
      d.total_deposited -
        (d.total_deposited * reserve_a / (reserve_a + reserve_b) +
          d.total_deposited * reserve_b / (reserve_a + reserve_b)) := by
    split <;> omega
  rw [hdec]

/-- The tracked deposit of 1000 units used in the C3 scenarios. -/
def exDeposit : UserPoolDeposit := ⟨"user", "pool", 1000, 1, 0⟩

/-- Witness for C3 at reserves `(1000, 1000)`: a user who deposited 1000 and
requests 5000 is clamped to 1000, receives `500` per leg, and — because the
floored payouts sum exactly to 1000 here — ends with tracked balance `0`. -/
theorem claim_C3_witness :
    executeWithdraw [("user:pool", exDeposit)] "user" "pool"
        [("A", 1000), ("B", 1000)] 5000 =
      .ok (⟨500, 500⟩,
        [("user:pool", { exDeposit with total_deposited := 0 })]) := by
  have h := claim_C3_withdrawal_clamp [("user:pool", exDeposit)] "user" "pool"
    "A" "B" 1000 1000 [] 5000 exDeposit rfl (by decide) (by decide)
    (by decide) (by decide) (by decide) (by decide)
  rw [h]
  rfl

/-- Counterexample to C3 as stated: deposited 1000, requested 5000, reserves
`(1, 2)`.  The clamped payouts are `⌊1000/3⌋ = 333` and `⌊2000/3⌋ = 666`,
whose sum `999` — not the clamped `1000` — is deducted, so the tracked
balance afterwards is `1`, not `0`. -/
theorem claim_C3_counterexample :
    executeWithdraw [("user:pool", exDeposit)] "user" "pool"
        [("A", 1), ("B", 2)] 5000 =
      .ok (⟨333, 666⟩,
        [("user:pool", { exDeposit with total_deposited := 1 })]) ∧
      (1 : Nat) ≠ 0 :=
  ⟨rfl, by decide⟩

end MiloDex
